import Mathlib

/-!
Verification of the order-ledger and reporting core of the Clothing Store
backend (`src/main.py`, `src/schemas.py`).

Modelling conventions:
* Python floats are IEEE-754 binary64 values, modelled here as the exact
  rationals they denote.  `roundDouble` rounds an exact rational to the
  nearest representable binary64 value (round-to-nearest, ties-to-even);
  all values arising in this development are normal-range doubles, far from
  overflow and underflow.  The rational arithmetic is written with `mkRat`
  and integer arithmetic on `Rat.num`/`Rat.den` (bridging lemmas below show
  these agree with the field operations of `ℚ`) so that every concrete
  computation reduces inside the Lean kernel.
* `datetime.utcnow()` within a single request handler is modelled as one
  clock instant passed as a parameter `now`; MongoDB's freshly generated
  `_id` is likewise passed as a parameter `newId`.
* The MongoDB order collection is a list of order documents in insertion
  order.  `update_one` updates the first document matching the filter.
* Python exceptions are modelled with `Except`: `mark_paid`'s `try` block
  is `mark_paid_try`, and the surrounding broad `except Exception` catches
  any error (including the `HTTPException(404)` raised inside the block)
  and turns it into `HTTPException(400, "Invalid ID")`, exactly as the
  source does.
-/

namespace ClothingStore

/-! ### Kernel-computable rational arithmetic -/

/-- Product of two rationals, via `mkRat`. -/
def qmul (a b : ℚ) : ℚ := mkRat (a.num * b.num) (a.den * b.den)

/-- Sum of two rationals, via `mkRat`. -/
def qadd (a b : ℚ) : ℚ := mkRat (a.num * b.den + b.num * a.den) (a.den * b.den)

/-- Quotient of a rational by a positive rational, via `mkRat`. -/
def qdiv (a b : ℚ) : ℚ := mkRat (a.num * b.den) (a.den * b.num.toNat)

/-- Absolute value of a rational, via `mkRat`. -/
def qabs (a : ℚ) : ℚ := if a.num < 0 then mkRat (-a.num) a.den else a

/-! ### Exact model of the IEEE-754 binary64 arithmetic used by Python floats -/

/-- Round a rational to the nearest integer, ties to even, by integer
arithmetic on the numerator and denominator: `f = ⌊q⌋` and the fractional
part `q - f` is compared with `1/2` by cross-multiplication. -/
def roundHalfEvenInt (q : ℚ) : ℤ :=
  let f := q.num.fdiv q.den
  let rnum := q.num - f * q.den
  if 2 * rnum < (q.den : ℤ) then f
  else if (q.den : ℤ) < 2 * rnum then f + 1
  else if f % 2 = 0 then f else f + 1

/-- Number of binary digits of a natural number (`0` for `0`), with enough
fuel for every magnitude arising in this development. -/
def bitsAux : Nat → Nat → Nat
  | 0, _ => 0
  | fuel+1, n => if n = 0 then 0 else bitsAux fuel (n / 2) + 1

/-- Binary digit count: `2^(bits n - 1) ≤ n < 2^(bits n)` for `n > 0`. -/
def bits (n : ℕ) : ℕ := bitsAux 4200 n

/-- Rational `2 ^ e`, for an integer exponent. -/
def pow2 (e : ℤ) : ℚ :=
  if 0 ≤ e then mkRat ((2 ^ e.toNat : ℕ) : ℤ) 1 else mkRat 1 (2 ^ (-e).toNat)

/-- Comparison `qle a b` decides `a ≤ b` by cross-multiplication (denominators are
positive). -/
def qle (a b : ℚ) : Bool := a.num * (b.den : ℤ) ≤ b.num * (a.den : ℤ)

/-- Binary exponent of a positive rational: the `e` with `2^e ≤ q < 2^(e+1)`,
computed from the digit counts of numerator and denominator. -/
def findExp (q : ℚ) : ℤ :=
  let e0 : ℤ := (bits q.num.toNat : ℤ) - (bits q.den : ℤ)
  if qle (pow2 e0) q then e0 else e0 - 1

/-- Round an exact rational to the nearest IEEE-754 binary64 value
(round-to-nearest, ties-to-even): the significand is the nearest integer to
`|q| / 2^(e-52)` where `2^e ≤ |q| < 2^(e+1)`.  Faithful for the normal
range of binary64. -/
def roundDouble (q : ℚ) : ℚ :=
  if q = 0 then 0
  else
    let a := qabs q
    let e := findExp a
    let ulp := pow2 (e - 52)
    let n := roundHalfEvenInt (qdiv a ulp)
    qmul (mkRat (if q.num < 0 then -n else n) 1) ulp

/-- Binary64 multiplication: exact product, then rounding. -/
def fmul (a b : ℚ) : ℚ := roundDouble (qmul a b)

/-- Binary64 addition: exact sum, then rounding. -/
def fadd (a b : ℚ) : ℚ := roundDouble (qadd a b)

/-- The binary64 value denoted by a decimal literal in the source / payload. -/
def floatOfRat (q : ℚ) : ℚ := roundDouble q

/-- Conversion of a Python int to a binary64 value. -/
def intToDouble (n : ℤ) : ℚ := roundDouble (mkRat n 1)

/-- Python's `sum` over floats: left fold of binary64 addition starting at
the int `0` (whose promotion to float is exact). -/
def pySum (l : List ℚ) : ℚ := l.foldl fadd 0

/-- Python's `round(x, 2)` on a float `x`: correctly rounded decimal rounding
of the exact value of `x` to 2 fractional digits (ties to even — a binary64
value is never an exact tie at 2 decimal digits), converted back to the
nearest binary64 value. -/
def pyRound2 (x : ℚ) : ℚ :=
  roundDouble (mkRat (roundHalfEvenInt (qmul x (mkRat 100 1))) 100)

/-! ### UTC timestamps

Python `datetime` values (as stored by MongoDB, with millisecond precision)
are modelled by their calendar components; `datetime` comparison is
lexicographic on those components. -/

structure DateTime where
  year : ℤ
  month : ℤ
  day : ℤ
  /-- milliseconds since midnight -/
  msOfDay : ℤ
deriving DecidableEq

/-- Strict `datetime` comparison: lexicographic on (year, month, day, time).
This is also the comparison MongoDB applies to the stored BSON dates in the
`$gte` / `$lt` match stage. -/
def DateTime.ltb (a b : DateTime) : Bool :=
  if a.year < b.year then true
  else if b.year < a.year then false
  else if a.month < b.month then true
  else if b.month < a.month then false
  else if a.day < b.day then true
  else if b.day < a.day then false
  else decide (a.msOfDay < b.msOfDay)

/-- Non-strict `datetime` comparison. -/
def DateTime.leb (a b : DateTime) : Bool := !(DateTime.ltb b a)

/-! ### Data model (`src/main.py` order models, `src/schemas.py`) -/

/-- Model of `OrderItemIn` (src/main.py lines 77–81): the pydantic model for one
order line.  The field types are the only constraints the model declares —
there is no `ge`/`gt` bound on `price` or `quantity` (unlike `Product.price`,
which has `ge=0`).  `price` is a float (modelled as the exact rational a
binary64 value denotes) and `quantity` an int. -/
structure OrderItemIn where
  product_id : String
  title : String
  price : ℚ
  quantity : ℤ
deriving DecidableEq

/-- Model of `CreateOrderRequest` (src/main.py lines 84–88). -/
structure CreateOrderRequest where
  customer_name : String
  customer_email : String
  shipping_address : String
  items : List OrderItemIn
deriving DecidableEq

/-- A raw JSON payload for one order item: each field either absent or
present with a value of the declared type. -/
structure RawOrderItem where
  product_id : Option String
  title : Option String
  price : Option ℚ
  quantity : Option ℤ
deriving DecidableEq

/-- Pydantic validation of `OrderItemIn` (src/main.py lines 77–81): all four
fields are required, and no constraint beyond the field type is declared, so
any present values — including a negative `price` or a non-positive
`quantity` — are accepted as-is. -/
def validateOrderItemIn (r : RawOrderItem) : Option OrderItemIn :=
  match r.product_id, r.title, r.price, r.quantity with
  | some p, some t, some pr, some q => some ⟨p, t, pr, q⟩
  | _, _, _, _ => none

/-- An order document as persisted in the `order` collection by
`create_order` (src/main.py lines 222–232); `id` is the stringified
MongoDB `_id`. -/
structure OrderDoc where
  id : String
  customer_name : String
  customer_email : String
  shipping_address : String
  items : List OrderItemIn
  subtotal : ℚ
  status : String
  payment_method : String
  created_at : DateTime
  updated_at : DateTime
  paid_at : Option DateTime
deriving DecidableEq

/-- An HTTP error response, as raised via `HTTPException`. -/
structure HTTPError where
  statusCode : ℤ
  detail : String
deriving DecidableEq

/-- A Python exception that can escape the body of `mark_paid`'s `try`
block: the explicitly raised `HTTPException`, or `bson`'s `InvalidId`
raised by `ObjectId(...)` on a malformed identifier string. -/
inductive PyExc where
  | httpException (status : ℤ) (detail : String)
  | bsonInvalidId
deriving DecidableEq

/-- Validity of a BSON `ObjectId` string: exactly 24 hexadecimal
characters (src imports `bson.objectid.ObjectId`, whose constructor raises
`InvalidId` otherwise). -/
def isValidObjectId (s : String) : Bool :=
  s.length == 24 && s.toList.all fun c =>
    c.isDigit || (('a' ≤ c) && (c ≤ 'f')) || (('A' ≤ c) && (c ≤ 'F'))

/-! ### Order Ledger operations (src/main.py lines 215–255) -/

/-- The subtotal computed by `create_order` (src/main.py lines 221, 227):
`round(sum(item.price * item.quantity for item in req.items), 2)` in
binary64 arithmetic. -/
def orderSubtotal (items : List OrderItemIn) : ℚ :=
  pyRound2 (pySum (items.map fun i => fmul i.price (intToDouble i.quantity)))

/-- Handler `create_order` (src/main.py lines 215–234): computes the subtotal from
the items, builds the document with status `"pending"`, payment method
`"qr"` and `created_at = updated_at = now`, inserts it (MongoDB assigns the
fresh id `newId`), and returns the document.  The two `datetime.utcnow()`
calls inside the handler are modelled as the single request instant `now`. -/
def create_order (req : CreateOrderRequest) (newId : String) (now : DateTime)
    (store : List OrderDoc) : OrderDoc × List OrderDoc :=
  let doc : OrderDoc :=
    { id := newId
      customer_name := req.customer_name
      customer_email := req.customer_email
      shipping_address := req.shipping_address
      items := req.items
      subtotal := orderSubtotal req.items
      status := "pending"
      payment_method := "qr"
      created_at := now
      updated_at := now
      paid_at := none }
  (doc, store ++ [doc])

/-- The `$set` document applied by `mark_paid` (src/main.py line 250). -/
def setPaid (o : OrderDoc) (now : DateTime) : OrderDoc :=
  { o with status := "paid", paid_at := some now, updated_at := now }

/-- Effect of `update_one` on the `order` collection with filter `{_id: oid}`:
updates the first matching document (MongoDB `_id`s are unique, so at most
one matches). -/
def setPaidFirst : List OrderDoc → String → DateTime → List OrderDoc
  | [], _, _ => []
  | o :: rest, oid, now =>
    if o.id == oid then setPaid o now :: rest
    else o :: setPaidFirst rest oid now

/-- The body of `mark_paid`'s `try` block (src/main.py lines 249–253):
`ObjectId(raw)` raises `InvalidId` on a malformed string; otherwise
`update_one` runs, and if it matched no document an `HTTPException(404,
"Order not found")` is raised — inside the `try` block. -/
def mark_paid_try (store : List OrderDoc) (raw : String) (now : DateTime) :
    Except PyExc (Bool × List OrderDoc) :=
  if isValidObjectId raw then
    if store.any fun o => o.id == raw then
      .ok (true, setPaidFirst store raw now)
    else .error (.httpException 404 "Order not found")
  else .error .bsonInvalidId

/-- Handler `mark_paid` (src/main.py lines 245–255): the broad `except Exception`
turns every exception escaping the `try` block — the `bson` `InvalidId`
**and** the 404 `HTTPException` raised for a missing order — into
`HTTPException(400, "Invalid ID")`.  Returns the response (`.ok true` is
`{"updated": true}`) and the resulting collection. -/
def mark_paid (store : List OrderDoc) (raw : String) (now : DateTime) :
    Except HTTPError Bool × List OrderDoc :=
  match mark_paid_try store raw now with
  | .ok (b, s) => (.ok b, s)
  | .error _ => (.error ⟨400, "Invalid ID"⟩, store)

/-- Handler `list_orders` (src/main.py lines 237–242): `find().sort("created_at", -1)`.
Modelled from the spec: the persistence layer (`database.py`, not under
`src/`) together with MongoDB provides the scan-with-sort; per the spec it
returns the full collection ordered by `created_at` descending with ties in
insertion order (a stable sort), here a stable merge sort of the collection
in insertion order. -/
def list_orders (store : List OrderDoc) : List OrderDoc :=
  store.mergeSort fun a b => DateTime.leb b.created_at a.created_at

/-! ### Reporting Engine (src/main.py lines 259–283) -/

/-- Python's `x or d` for `x : Optional[int]`: `None` and `0` are falsy. -/
def pyOr (x : Option ℤ) (d : ℤ) : ℤ :=
  match x with
  | none => d
  | some v => if v = 0 then d else v

/-- Window start `dt(y, m, 1)` (src/main.py line 268). -/
def reportStart (y m : ℤ) : DateTime := ⟨y, m, 1, 0⟩

/-- Window end (src/main.py lines 269–272): first instant of the following
month. -/
def reportEnd (y m : ℤ) : DateTime :=
  if m = 12 then ⟨y + 1, 1, 1, 0⟩ else ⟨y, m + 1, 1, 0⟩

/-- The `$match` stage of the aggregation pipeline (src/main.py line 275):
`created_at >= start` and `created_at < end`. -/
def inReportWindow (y m : ℤ) (t : DateTime) : Bool :=
  DateTime.leb (reportStart y m) t && DateTime.ltb t (reportEnd y m)

/-- The orders selected by the `$match` stage for window `(y, m)`. -/
def matchedOrders (y m : ℤ) (store : List OrderDoc) : List OrderDoc :=
  store.filter fun o => inReportWindow y m o.created_at

/-- The result of `monthly_report`. -/
structure MonthlyReport where
  year : ℤ
  month : ℤ
  /-- status ↦ (order count, rounded revenue) -/
  summary : List (String × ℕ × ℚ)
  total_orders : ℕ
  total_revenue : ℚ
deriving DecidableEq

/-- Handler `monthly_report` (src/main.py lines 259–283): defaults `year`/`month`
by Python truthiness (`year or now.year`), matches orders with `created_at`
in the half-open window, groups them by status (count and binary64 sum of
`subtotal` per group), rounds each group's revenue for the summary, and
computes the grand totals from the unrounded group sums. -/
def monthly_report (year month : Option ℤ) (now : DateTime)
    (store : List OrderDoc) : MonthlyReport :=
  let y := pyOr year now.year
  let m := pyOr month now.month
  let matched := matchedOrders y m store
  let keys := (matched.map fun o => o.status).eraseDups
  let groups := keys.map fun k =>
    let grp := matched.filter fun o => o.status == k
    (k, grp.length, pySum (grp.map fun o => o.subtotal))
  { year := y
    month := m
    summary := groups.map fun g => (g.1, g.2.1, pyRound2 g.2.2)
    total_orders := if groups.isEmpty then 0 else (groups.map fun g => g.2.1).sum
    total_revenue := if groups.isEmpty then 0 else pyRound2 (pySum (groups.map fun g => g.2.2)) }

/-! ### Specification-level order on timestamps and auxiliary predicates -/

/-- Chronological order on timestamps, stated directly as the lexicographic
order on calendar components (the order `datetime` comparison implements). -/
def DateTime.lt (a b : DateTime) : Prop :=
  a.year < b.year ∨ (a.year = b.year ∧
    (a.month < b.month ∨ (a.month = b.month ∧
      (a.day < b.day ∨ (a.day = b.day ∧ a.msOfDay < b.msOfDay)))))

/-- Non-strict chronological order on timestamps. -/
def DateTime.le (a b : DateTime) : Prop := DateTime.lt a b ∨ a = b

/-- Agreement of two order documents on every field except `paid_at` and
`updated_at`. -/
def agreeExceptPayTimes (a b : OrderDoc) : Bool :=
  a.id == b.id && a.customer_name == b.customer_name &&
  a.customer_email == b.customer_email && a.shipping_address == b.shipping_address &&
  a.items == b.items && a.subtotal == b.subtotal && a.status == b.status &&
  a.payment_method == b.payment_method && a.created_at == b.created_at

/-- Pointwise agreement of two collections on every field except `paid_at`
and `updated_at`. -/
def listAgreeExceptPayTimes : List OrderDoc → List OrderDoc → Bool
  | [], [] => true
  | a :: as, b :: bs => agreeExceptPayTimes a b && listAgreeExceptPayTimes as bs
  | _, _ => false

/-! ### Concrete fixtures for the evaluated instances -/

/-- A concrete request instant. -/
def t0 : DateTime := ⟨2024, 1, 1, 0⟩

/-- A second, later request instant. -/
def t1 : DateTime := ⟨2024, 1, 2, 0⟩

/-- A syntactically valid `ObjectId` string (24 hexadecimal characters). -/
def oid0 : String := "0123456789abcdef01234567"

/-- The items of §8's subtotal fixture:
`[{price: 19.99, qty: 2}, {price: 5.005, qty: 1}]`, with the prices as the
binary64 values the JSON decimals denote. -/
def fixtureItems : List OrderItemIn :=
  [⟨"p1", "Shirt", floatOfRat (mkRat 1999 100), 2⟩,
   ⟨"p2", "Socks", floatOfRat (mkRat 5005 1000), 1⟩]

/-- A concrete `create_order` request carrying `fixtureItems`. -/
def fixtureReq : CreateOrderRequest :=
  ⟨"Ada", "ada@example.com", "1 Main St", fixtureItems⟩

/-- A concrete pending order stored under `oid0`. -/
def order0 : OrderDoc :=
  { id := oid0
    customer_name := "Ada"
    customer_email := "ada@example.com"
    shipping_address := "1 Main St"
    items := fixtureItems
    subtotal := roundDouble (mkRat 4498 100)
    status := "pending"
    payment_method := "qr"
    created_at := t0
    updated_at := t0
    paid_at := none }

/-- A concrete order created in the last millisecond of February 2024
(a leap year): `2024-02-29T23:59:59.999`. -/
def orderFebEnd : OrderDoc :=
  { order0 with id := "abcdefabcdefabcdefabcdef", created_at := ⟨2024, 2, 29, 86399999⟩ }

/-! ### Helper lemmas -/

set_option maxRecDepth 40000

theorem mkRat_natCast_eq_div (n : ℤ) (d : ℕ) : mkRat n d = (n : ℚ) / (d : ℚ) := by
  rw [Rat.mkRat_eq_divInt, Rat.divInt_eq_div]
  push_cast
  rfl

/-- Bridge: `qmul` is multiplication on `ℚ`. -/
theorem qmul_eq_mul (a b : ℚ) : qmul a b = a * b := by
  have ha : (a.den : ℚ) ≠ 0 := by exact_mod_cast a.den_ne_zero
  have hb : (b.den : ℚ) ≠ 0 := by exact_mod_cast b.den_ne_zero
  conv_rhs => rw [← Rat.num_div_den a, ← Rat.num_div_den b]
  rw [qmul, mkRat_natCast_eq_div, div_mul_div_comm]
  push_cast
  ring_nf

/-- Bridge: `qadd` is addition on `ℚ`. -/
theorem qadd_eq_add (a b : ℚ) : qadd a b = a + b := by
  have ha : (a.den : ℚ) ≠ 0 := by exact_mod_cast a.den_ne_zero
  have hb : (b.den : ℚ) ≠ 0 := by exact_mod_cast b.den_ne_zero
  conv_rhs => rw [← Rat.num_div_den a, ← Rat.num_div_den b]
  rw [qadd, mkRat_natCast_eq_div, div_add_div _ _ ha hb]
  push_cast
  ring_nf

/-- Bridge: `qabs` is the absolute value on `ℚ`. -/
theorem qabs_eq_abs (a : ℚ) : qabs a = |a| := by
  rw [qabs]
  by_cases h : a.num < 0
  · have ha : a < 0 := by
      have := (Rat.num_nonneg (q := a)).not
      rw [not_le, not_le] at this
      exact this.mp h
    rw [if_pos h, abs_of_neg ha, mkRat_natCast_eq_div]
    push_cast
    rw [neg_div, Rat.num_div_den]
  · have ha : 0 ≤ a := by
      rw [not_lt] at h
      exact Rat.num_nonneg.mp h
    rw [if_neg h, abs_of_nonneg ha]

/-- Bridge: for a positive divisor, `qdiv` is division on `ℚ`. -/
theorem qdiv_eq_div (a b : ℚ) (hb : 0 < b) : qdiv a b = a / b := by
  have hbnum : 0 < b.num := Rat.num_pos.mpr hb
  have ha : (a.den : ℚ) ≠ 0 := by exact_mod_cast a.den_ne_zero
  have hbd : (b.den : ℚ) ≠ 0 := by exact_mod_cast b.den_ne_zero
  have hbn : (b.num : ℚ) ≠ 0 := by exact_mod_cast hbnum.ne'
  have htn : ((b.num.toNat : ℕ) : ℚ) = (b.num : ℚ) := by
    exact_mod_cast Int.toNat_of_nonneg hbnum.le
  conv_rhs => rw [← Rat.num_div_den a, ← Rat.num_div_den b]
  rw [qdiv, mkRat_natCast_eq_div, div_div_div_eq]
  push_cast
  rw [htn]

/-- Bridge: `qle` decides the order of `ℚ`. -/
theorem qle_iff (a b : ℚ) : qle a b = true ↔ a ≤ b := by
  have ha : (0 : ℚ) < (a.den : ℚ) := by exact_mod_cast a.pos
  have hb : (0 : ℚ) < (b.den : ℚ) := by exact_mod_cast b.pos
  rw [qle, decide_eq_true_eq]
  conv_rhs => rw [← Rat.num_div_den a, ← Rat.num_div_den b]
  rw [div_le_div_iff₀ ha hb]
  exact_mod_cast Iff.rfl

theorem DateTime.ltb_iff (a b : DateTime) : a.ltb b = true ↔ DateTime.lt a b := by
  obtain ⟨y₁, m₁, d₁, s₁⟩ := a
  obtain ⟨y₂, m₂, d₂, s₂⟩ := b
  simp only [DateTime.ltb, DateTime.lt]
  split_ifs <;> simp_all <;> omega

theorem DateTime.leb_iff (a b : DateTime) : a.leb b = true ↔ DateTime.le a b := by
  have h : (DateTime.ltb b a = false) ↔ ¬ (DateTime.ltb b a = true) := by simp
  rw [DateTime.leb, Bool.not_eq_true', h, DateTime.ltb_iff]
  obtain ⟨y₁, m₁, d₁, s₁⟩ := a
  obtain ⟨y₂, m₂, d₂, s₂⟩ := b
  simp only [DateTime.lt, DateTime.le, DateTime.mk.injEq]
  omega

theorem DateTime.leb_total (a b : DateTime) : (a.leb b || b.leb a) = true := by
  rw [Bool.or_eq_true, DateTime.leb_iff, DateTime.leb_iff]
  obtain ⟨y₁, m₁, d₁, s₁⟩ := a
  obtain ⟨y₂, m₂, d₂, s₂⟩ := b
  simp only [DateTime.lt, DateTime.le, DateTime.mk.injEq]
  omega

theorem DateTime.leb_trans {a b c : DateTime} (h₁ : a.leb b = true)
    (h₂ : b.leb c = true) : a.leb c = true := by
  rw [DateTime.leb_iff] at h₁ h₂ ⊢
  obtain ⟨y₁, m₁, d₁, s₁⟩ := a
  obtain ⟨y₂, m₂, d₂, s₂⟩ := b
  obtain ⟨y₃, m₃, d₃, s₃⟩ := c
  simp only [DateTime.lt, DateTime.le, DateTime.mk.injEq] at h₁ h₂ ⊢
  omega

/-! ### Claim C1 -/

/-- C1: `mark_paid` on a syntactically valid `ObjectId` that matches no
stored order does **not** return the 404 NotFound error: the
`HTTPException(404, "Order not found")` is raised inside the `try` block
and swallowed by the broad `except Exception`, which re-raises
`HTTPException(400, "Invalid ID")` — the very same error a malformed
identifier produces.  The two outcomes are therefore indistinguishable,
contradicting the claim. -/
theorem mark_paid_notfound_swallowed_as_400 :
    isValidObjectId oid0 = true ∧
    mark_paid_try [] oid0 t0 = .error (.httpException 404 "Order not found") ∧
    (mark_paid [] oid0 t0).1 = .error ⟨400, "Invalid ID"⟩ ∧
    isValidObjectId "not-an-objectid!" = false ∧
    (mark_paid [] "not-an-objectid!" t0).1 = .error ⟨400, "Invalid ID"⟩ ∧
    (mark_paid [] oid0 t0).1 = (mark_paid [] "not-an-objectid!" t0).1 :=
  ⟨by decide, rfl, rfl, by decide, rfl, rfl⟩

/-! ### Claim C2 -/

/-- C2 counterexample: for the fixture items
`[{price: 19.99, qty: 2}, {price: 5.005, qty: 1}]` the persisted subtotal is
**not** 44.99: `19.99*2 + 5.005` evaluates in binary64 to the double
`44.985`, whose exact value is slightly below `44.985`, so Python's
`round(…, 2)` returns the double `44.98`.  The subtotal differs both from
the rational `44.99` and from the binary64 value nearest `44.99`. -/
theorem create_order_fixture_subtotal_ne_4499 :
    (create_order fixtureReq "a1" t0 []).1.subtotal ≠ mkRat 4499 100 ∧
    (create_order fixtureReq "a1" t0 []).1.subtotal ≠ roundDouble (mkRat 4499 100) :=
  ⟨by decide, by decide⟩

/-- C2 (amended): the persisted and returned subtotal equals
`round(Σ item.price × item.quantity, 2)` computed in binary64 arithmetic,
and for the fixture items the subtotal is exactly the binary64 value
nearest `44.98` (not `44.99`). -/
theorem create_order_subtotal_spec (req : CreateOrderRequest) (newId : String)
    (now : DateTime) (store : List OrderDoc) :
    (create_order req newId now store).1.subtotal
      = pyRound2 (pySum (req.items.map fun i => fmul i.price (intToDouble i.quantity))) ∧
    (create_order fixtureReq "a1" t0 []).1.subtotal = roundDouble (mkRat 4498 100) :=
  ⟨rfl, by decide⟩

/-! ### Claim C5 -/

/-- C5 counterexample: a payload item with a negative price and a
non-positive quantity is accepted by the input type — `OrderItemIn`
declares no value constraint, so validation succeeds and the item reaches
the Order Ledger unchanged. -/
theorem order_item_negative_values_accepted :
    validateOrderItemIn ⟨some "p1", some "Shirt", some (mkRat (-1) 1), some 0⟩
      = some ⟨"p1", "Shirt", mkRat (-1) 1, 0⟩ ∧
    (mkRat (-1) 1 : ℚ) < 0 ∧ ¬ (0 < (0 : ℤ)) :=
  ⟨rfl, by norm_num [Rat.mkRat_eq_div], by omega⟩

/-- C5 (amended): the input type enforces only field presence and field
type: a payload with all four fields present is accepted whatever the
values of `price` and `quantity` (negative prices and non-positive
quantities included), and a payload missing any required field is rejected
as a ValidationError before reaching the Order Ledger. -/
theorem order_item_validation_fields_only (p t : String) (pr : ℚ) (q : ℤ) :
    validateOrderItemIn ⟨some p, some t, some pr, some q⟩ = some ⟨p, t, pr, q⟩ ∧
    validateOrderItemIn ⟨none, some t, some pr, some q⟩ = none ∧
    validateOrderItemIn ⟨some p, none, some pr, some q⟩ = none ∧
    validateOrderItemIn ⟨some p, some t, none, some q⟩ = none ∧
    validateOrderItemIn ⟨some p, some t, some pr, none⟩ = none :=
  ⟨rfl, rfl, rfl, rfl, rfl⟩

/-! ### Claim C7 -/

/-- C7: every order returned (and persisted) by `create_order` has status
`"pending"`, payment method `"qr"`, and `created_at = updated_at = now`
(the request's UTC instant), regardless of the request's field values. -/
theorem create_order_initial_state (req : CreateOrderRequest) (newId : String)
    (now : DateTime) (store : List OrderDoc) :
    (create_order req newId now store).1.status = "pending" ∧
    (create_order req newId now store).1.payment_method = "qr" ∧
    (create_order req newId now store).1.created_at = now ∧
    (create_order req newId now store).1.updated_at = now ∧
    (create_order req newId now store).1.created_at
      = (create_order req newId now store).1.updated_at ∧
    (create_order req newId now store).2 = store ++ [(create_order req newId now store).1] :=
  ⟨rfl, rfl, rfl, rfl, rfl, rfl⟩

/-! ### Claim C9 -/

/-- C9: `create_order` with an empty items sequence is not rejected — it
persists an order whose subtotal is `0.0` (the non-empty-items requirement
is unenforced). -/
theorem create_order_empty_items (n e a newId : String) (now : DateTime)
    (store : List OrderDoc) :
    (create_order ⟨n, e, a, []⟩ newId now store).1.subtotal = 0 ∧
    (create_order ⟨n, e, a, []⟩ newId now store).2
      = store ++ [(create_order ⟨n, e, a, []⟩ newId now store).1] :=
  ⟨by simp only [create_order]; decide, rfl⟩

/-! ### Claim C10 -/

/-- C10: `monthly_report` treats an explicitly supplied `year = 0` or
`month = 0` exactly like an omitted parameter, because the Python
defaulting `year or now.year` tests truthiness and `0` is falsy. -/
theorem monthly_report_zero_is_omitted (yr mo : Option ℤ) (now : DateTime)
    (store : List OrderDoc) :
    monthly_report (some 0) mo now store = monthly_report none mo now store ∧
    monthly_report yr (some 0) now store = monthly_report yr none now store :=
  ⟨rfl, rfl⟩

/-! ### Claim C3 -/

/-- C3: `monthly_report` counts an order exactly when its `created_at` lies
in the half-open window from the first instant of `(y, m)` (inclusive) to
the first instant of the following month (exclusive).  Concretely, an order
at `2024-02-29T23:59:59.999` is inside February 2024's window and outside
March's, an order at `2024-03-01T00:00:00.000` is outside February's, and a
store holding exactly the February-end order yields `total_orders = 1` for
February and `0` for March. -/
theorem monthly_report_window_halfopen (y m : ℤ) (store : List OrderDoc)
    (o : OrderDoc) :
    (o ∈ matchedOrders y m store ↔ o ∈ store ∧
      DateTime.le (reportStart y m) o.created_at ∧
      DateTime.lt o.created_at (reportEnd y m)) ∧
    inReportWindow 2024 2 ⟨2024, 2, 29, 86399999⟩ = true ∧
    inReportWindow 2024 3 ⟨2024, 2, 29, 86399999⟩ = false ∧
    inReportWindow 2024 2 ⟨2024, 3, 1, 0⟩ = false ∧
    (monthly_report (some 2024) (some 2) t0 [orderFebEnd]).total_orders = 1 ∧
    (monthly_report (some 2024) (some 3) t0 [orderFebEnd]).total_orders = 0 := by
  refine ⟨?_, by decide, by decide, by decide, by decide, by decide⟩
  simp only [matchedOrders, List.mem_filter, inReportWindow, Bool.and_eq_true,
    DateTime.leb_iff, DateTime.ltb_iff]

/-! ### Claim C4 -/

theorem setPaidFirst_map_id (s : List OrderDoc) (oid : String) (now : DateTime) :
    (setPaidFirst s oid now).map (fun o => o.id) = s.map (fun o => o.id) := by
  induction s with
  | nil => rfl
  | cons o rest ih =>
    simp only [setPaidFirst]
    split
    · simp [setPaid]
    · simp [ih]

theorem setPaidFirst_any (s : List OrderDoc) (oid : String) (now : DateTime) :
    ((setPaidFirst s oid now).any fun o => o.id == oid)
      = (s.any fun o => o.id == oid) := by
  induction s with
  | nil => rfl
  | cons o rest ih =>
    simp only [setPaidFirst]
    split
    · simp_all [setPaid]
    · simp [ih]

theorem setPaidFirst_find (s : List OrderDoc) (oid : String) (now : DateTime) :
    (setPaidFirst s oid now).find? (fun o => o.id == oid)
      = (s.find? fun o => o.id == oid).map (fun o => setPaid o now) := by
  induction s with
  | nil => rfl
  | cons o rest ih =>
    simp only [setPaidFirst]
    by_cases h : (o.id == oid) = true
    · have h2 : ((setPaid o now).id == oid) = true := h
      rw [if_pos h,
        @List.find?_cons_of_pos _ (fun x => x.id == oid) (setPaid o now) rest h2,
        @List.find?_cons_of_pos _ (fun x => x.id == oid) o rest h]
      rfl
    · have h2 : ¬ ((setPaid o now).id == oid) = true := h
      rw [if_neg h,
        @List.find?_cons_of_neg _ (fun x => x.id == oid) o (setPaidFirst rest oid now) h,
        @List.find?_cons_of_neg _ (fun x => x.id == oid) o rest h, ih]

theorem agreeExceptPayTimes_refl (o : OrderDoc) : agreeExceptPayTimes o o = true := by
  simp [agreeExceptPayTimes]

theorem listAgreeExceptPayTimes_refl (s : List OrderDoc) :
    listAgreeExceptPayTimes s s = true := by
  induction s with
  | nil => rfl
  | cons o rest ih => simp [listAgreeExceptPayTimes, agreeExceptPayTimes_refl, ih]

theorem setPaidFirst_agree (s : List OrderDoc) (oid : String) (now : DateTime)
    (h : ∀ x, s.find? (fun o => o.id == oid) = some x → x.status = "paid") :
    listAgreeExceptPayTimes s (setPaidFirst s oid now) = true := by
  induction s with
  | nil => rfl
  | cons o rest ih =>
    simp only [setPaidFirst]
    by_cases hp : (o.id == oid) = true
    · rw [if_pos hp]
      have hst : o.status = "paid" :=
        h o (@List.find?_cons_of_pos _ (fun x => x.id == oid) o rest hp)
      simp [listAgreeExceptPayTimes, agreeExceptPayTimes, setPaid, hst,
        listAgreeExceptPayTimes_refl]
    · rw [if_neg hp]
      have ih' := ih fun x hx => h x (by
        rw [@List.find?_cons_of_neg _ (fun y => y.id == oid) o rest hp]
        exact hx)
      simp [listAgreeExceptPayTimes, agreeExceptPayTimes_refl, ih']

/-- C4: calling `mark_paid` twice with the same well-formed, existing
`order_id` returns `{updated: true}` both times; afterwards the stored
order (the one a lookup by that id finds) has status `"paid"`, and the
second call changed nothing except `paid_at` and `updated_at`. -/
theorem mark_paid_twice_idempotent (store : List OrderDoc) (oid : String)
    (ta tb : DateTime) (hv : isValidObjectId oid = true)
    (hm : (store.any fun o => o.id == oid) = true) :
    (mark_paid store oid ta).1 = .ok true ∧
    (mark_paid (mark_paid store oid ta).2 oid tb).1 = .ok true ∧
    (((mark_paid (mark_paid store oid ta).2 oid tb).2.find? fun o => o.id == oid).map
      fun o => o.status) = some "paid" ∧
    listAgreeExceptPayTimes (mark_paid store oid ta).2
      (mark_paid (mark_paid store oid ta).2 oid tb).2 = true := by
  have e1 : mark_paid store oid ta = (.ok true, setPaidFirst store oid ta) := by
    simp [mark_paid, mark_paid_try, hv, hm]
  have hm1 : ((setPaidFirst store oid ta).any fun o => o.id == oid) = true := by
    rw [setPaidFirst_any]; exact hm
  have e2 : mark_paid (setPaidFirst store oid ta) oid tb
      = (.ok true, setPaidFirst (setPaidFirst store oid ta) oid tb) := by
    simp [mark_paid, mark_paid_try, hv, hm1]
  obtain ⟨o₀, ho₀, hpo₀⟩ := List.any_eq_true.mp hm
  have hfind0 : ∃ x, store.find? (fun o => o.id == oid) = some x := by
    have : (store.find? fun o => o.id == oid).isSome :=
      List.find?_isSome.mpr ⟨o₀, ho₀, hpo₀⟩
    exact Option.isSome_iff_exists.mp this
  obtain ⟨x₀, hx₀⟩ := hfind0
  have hf1 : (setPaidFirst store oid ta).find? (fun o => o.id == oid)
      = some (setPaid x₀ ta) := by
    rw [setPaidFirst_find, hx₀]; rfl
  have hf2 : (setPaidFirst (setPaidFirst store oid ta) oid tb).find?
      (fun o => o.id == oid) = some (setPaid (setPaid x₀ ta) tb) := by
    rw [setPaidFirst_find, hf1]; rfl
  refine ⟨by rw [e1], ?_, ?_, ?_⟩
  · rw [e1]; show (mark_paid (setPaidFirst store oid ta) oid tb).1 = .ok true
    rw [e2]
  · rw [e1]; show ((mark_paid (setPaidFirst store oid ta) oid tb).2.find?
      fun o => o.id == oid).map (fun o => o.status) = some "paid"
    rw [e2]
    show ((setPaidFirst (setPaidFirst store oid ta) oid tb).find?
      fun o => o.id == oid).map (fun o => o.status) = some "paid"
    rw [hf2]; rfl
  · rw [e1]
    show listAgreeExceptPayTimes (setPaidFirst store oid ta)
      (mark_paid (setPaidFirst store oid ta) oid tb).2 = true
    rw [e2]
    exact setPaidFirst_agree _ _ _ fun x hx => by
      rw [hf1] at hx
      cases hx
      rfl

/-- C4 witness: the concrete pending order `order0` stored under the valid
id `oid0`, marked paid at `t0` and again at `t1`. -/
theorem mark_paid_twice_idempotent_witness :
    (mark_paid [order0] oid0 t0).1 = .ok true ∧
    (mark_paid (mark_paid [order0] oid0 t0).2 oid0 t1).1 = .ok true ∧
    (((mark_paid (mark_paid [order0] oid0 t0).2 oid0 t1).2.find? fun o => o.id == oid0).map
      fun o => o.status) = some "paid" ∧
    listAgreeExceptPayTimes (mark_paid [order0] oid0 t0).2
      (mark_paid (mark_paid [order0] oid0 t0).2 oid0 t1).2 = true :=
  mark_paid_twice_idempotent [order0] oid0 t0 t1 (by decide) (by decide)

/-! ### Claim C6 -/

theorem setPaidFirst_forall₂ (s : List OrderDoc) (oid : String) (now : DateTime) :
    List.Forall₂ (fun o o' => o' = o ∨ o' = setPaid o now) s (setPaidFirst s oid now) := by
  induction s with
  | nil => exact .nil
  | cons o rest ih =>
    simp only [setPaidFirst]
    split
    · exact .cons (Or.inr rfl) (List.forall₂_same.mpr fun x _ => Or.inl rfl)
    · exact .cons (Or.inl rfl) ih

/-- C6: status transitions are monotonic.  `create_order` appends a new
order with status `"pending"` and touches nothing else; `mark_paid` leaves
every order's status unchanged or sets it to `"paid"` — in particular no
operation ever moves a `"paid"` order back to `"pending"`, and no operation
ever writes `"cancelled"` (the read-only `list_orders` and `monthly_report`
are pure functions of the store in this model). -/
theorem status_writes_monotonic (req : CreateOrderRequest) (newId : String)
    (now tp : DateTime) (store : List OrderDoc) (raw : String) :
    ((create_order req newId now store).2
        = store ++ [(create_order req newId now store).1] ∧
      (create_order req newId now store).1.status = "pending") ∧
    List.Forall₂ (fun o o' =>
        (o'.status = o.status ∨ o'.status = "paid") ∧
        (o.status = "paid" → o'.status = "paid") ∧
        (o'.status = "cancelled" → o.status = "cancelled"))
      store (mark_paid store raw tp).2 := by
  refine ⟨⟨rfl, rfl⟩, ?_⟩
  have base : List.Forall₂ (fun o o' => o' = o ∨ o' = setPaid o tp)
      store (mark_paid store raw tp).2 := by
    by_cases hv : isValidObjectId raw = true
    · by_cases hm : (store.any fun o => o.id == raw) = true
      · have e : (mark_paid store raw tp).2 = setPaidFirst store raw tp := by
          simp [mark_paid, mark_paid_try, hv, hm]
        rw [e]; exact setPaidFirst_forall₂ store raw tp
      · have e : (mark_paid store raw tp).2 = store := by
          simp [mark_paid, mark_paid_try, hv, hm]
        rw [e]; exact List.forall₂_same.mpr fun x _ => Or.inl rfl
    · have e : (mark_paid store raw tp).2 = store := by
        simp [mark_paid, mark_paid_try, hv]
      rw [e]; exact List.forall₂_same.mpr fun x _ => Or.inl rfl
  refine base.imp ?_
  rintro a b (rfl | rfl)
  · exact ⟨Or.inl rfl, fun h => h, fun h => h⟩
  · exact ⟨Or.inr rfl, fun _ => rfl, fun h => by simp [setPaid] at h⟩

/-! ### Claim C8 -/

theorem ordLe_trans (a b c : OrderDoc)
    (h₁ : DateTime.leb b.created_at a.created_at = true)
    (h₂ : DateTime.leb c.created_at b.created_at = true) :
    DateTime.leb c.created_at a.created_at = true :=
  DateTime.leb_trans h₂ h₁

theorem ordLe_total (a b : OrderDoc) :
    (DateTime.leb b.created_at a.created_at
      || DateTime.leb a.created_at b.created_at) = true :=
  DateTime.leb_total b.created_at a.created_at

/-- Stability of a merge sort under a filter whose elements are pairwise
tied: the filtered output equals the filtered input. -/
theorem mergeSort_filter_stable {α : Type} {le : α → α → Bool}
    (trans : ∀ a b c : α, le a b → le b c → le a c)
    (total : ∀ a b : α, le a b || le b a)
    (p : α → Bool) (hp : ∀ a b : α, p a → p b → le a b) (l : List α) :
    (l.mergeSort le).filter p = l.filter p := by
  have hself : (l.filter p).filter p = l.filter p :=
    List.filter_eq_self.mpr fun a ha => (List.mem_filter.mp ha).2
  have hpw : (l.filter p).Pairwise fun a b => le a b := by
    apply List.pairwise_of_forall_mem_list
    intro a ha b hb
    exact hp a b (List.mem_filter.mp ha).2 (List.mem_filter.mp hb).2
  have h1 : List.Sublist (l.filter p) (l.mergeSort le) :=
    List.sublist_mergeSort trans total hpw (List.filter_sublist l)
  have h3 : List.Sublist (l.filter p) ((l.mergeSort le).filter p) := by
    rw [← hself]; exact h1.filter p
  have h2 : List.Perm ((l.mergeSort le).filter p) (l.filter p) := (List.mergeSort_perm l le).filter p
  exact (h3.eq_of_length h2.length_eq.symm).symm

/-- C8: `list_orders` returns the full stored collection (a permutation of
it) sorted by `created_at` descending, and the sort is stable: for every
timestamp `t`, the orders with `created_at = t` appear exactly as they do
in insertion order. -/
theorem list_orders_sorted_stable (store : List OrderDoc) :
    List.Perm (list_orders store) store ∧
    (list_orders store).Pairwise
      (fun a b => DateTime.le b.created_at a.created_at) ∧
    ∀ t : DateTime, (list_orders store).filter (fun o => o.created_at == t)
      = store.filter fun o => o.created_at == t := by
  refine ⟨List.mergeSort_perm store _, ?_, ?_⟩
  · have h := List.sorted_mergeSort ordLe_trans ordLe_total store
    exact h.imp fun hab => (DateTime.leb_iff _ _).mp hab
  · intro t
    apply mergeSort_filter_stable ordLe_trans ordLe_total
    intro a b ha hb
    have ha' : a.created_at = t := by
      have := ha
      simpa [beq_iff_eq] using this
    have hb' : b.created_at = t := by
      have := hb
      simpa [beq_iff_eq] using this
    rw [DateTime.leb_iff, ha', hb']
    exact Or.inr rfl

end ClothingStore
